import Mathlib

/-!
Verification development for the clinical-research-assistant pipeline
(`app_with_hash_cache.py`): a shallow embedding of its content-addressed
extraction-and-cache pipeline (hash-keyed memoization of PDF extraction and
model analysis, retry-with-backoff around the model call, and the 7-day
persisted history store), with theorems checking the documented behaviour.

Modelling conventions:
* JSON values are the inductive `JVal`; Python dicts are association lists.
* Timestamps are integers (seconds).  The source stores them as
  `"%Y-%m-%d %H:%M:%S"` strings and parses them with `strptime`; that encoding
  is a bijection into seconds, so the model works with the parsed integer
  directly.  A record whose time field is missing or unparseable is modelled
  by `recTime = none` (the Python `KeyError`/`ValueError`).
* Python exceptions are modelled with `Option`/`Except`: `none`/`.error`
  means the corresponding Python code raised; a `try/except` that swallows
  the exception turns `none` into the handler's return value.
* UI side effects (progress bars, status messages) have no bearing on the
  data flow and are omitted.
-/

namespace ClinicalAssistant

/-- A JSON value, as produced by `json.load` in the source.  Objects keep the
key order of the underlying file; Python dicts have unique keys. -/
inductive JVal where
  | obj (fields : List (String × JVal))
  | arr (items : List JVal)
  | str (s : String)
  | num (n : Int)
  | null

/-- Python `d[k]` / `d.get(k)` on an association-list object body: the value
of the first field named `k`. -/
def lookupField : List (String × JVal) → String → Option JVal
  | [], _ => none
  | (k, v) :: rest, key => if k = key then some v else lookupField rest key

/-- `record['时间']` followed by `datetime.strptime(..., '%Y-%m-%d %H:%M:%S')`:
yields the record's timestamp in seconds, or `none` when the key is missing or
the value is not a parseable timestamp (both raise in Python). -/
def recTime (r : JVal) : Option Int :=
  match r with
  | JVal.obj fields =>
    match lookupField fields "时间" with
    | some (JVal.num t) => some t
    | _ => none
  | _ => none

/-- Seconds in seven days: the retention window `timedelta(days=7)`. -/
def oneWeek : Int := 7 * 86400

/-- The retention list comprehension shared by `load_history` and
`save_history`:
`[r for r in records if strptime(r['时间']) > one_week_ago]`.
Evaluates records left to right; `none` models the comprehension raising on a
record with a missing/bad time field (the whole comprehension fails). -/
def filterRecent (now : Int) : List JVal → Option (List JVal)
  | [] => some []
  | r :: rs =>
    match recTime r with
    | none => none
    | some t =>
      match filterRecent now rs with
      | none => none
      | some rest => some (if t > now - oneWeek then r :: rest else rest)

/-- The history file handed to `load_history`, as seen through
`os.path.exists` + `json.load`:
`none` = file missing; `some none` = unreadable or unparseable content (an
empty file makes `json.load` raise); `some (some j)` = parsed JSON `j`. -/
def HistFile : Type := Option (Option JVal)

/-- `load_history()` from the source: returns `[]` when the file is missing,
when parsing raises, when the content is not a dict with a `records` list, or
when cleaning raises; otherwise returns the records younger than one week, in
file order. -/
def load_history (now : Int) (file : HistFile) : List JVal :=
  match file with
  | none => []
  | some none => []
  | some (some data) =>
    match data with
    | JVal.obj fields =>
      match lookupField fields "records" with
      | some (JVal.arr records) =>
        match filterRecent now records with
        | none => []
        | some cleaned => cleaned
      | some _ => []
      | none => []
    | _ => []

/-- `save_history(records)` from the source, for a caller that passes a list
(the `isinstance(records, list)` guard passes).  `ioOk` models whether the
file write succeeds; on any exception (bad time field, I/O failure) the
function returns `False` and nothing is persisted.  On success it returns
`True` together with the persisted JSON document. -/
def save_history (now : Int) (ioOk : Bool) (records : List JVal) :
    Bool × Option JVal :=
  match filterRecent now records with
  | none => (false, none)
  | some cleaned =>
    if ioOk then
      (true, some (JVal.obj
        [("records", JVal.arr cleaned),
         ("metadata", JVal.obj
           [("last_updated", JVal.num now),
            ("total_records", JVal.num cleaned.length),
            ("cleaned_records",
              JVal.num ((records.length : Int) - cleaned.length))])]))
    else (false, none)

/-- `r.get('id')` on a history record. -/
def getId (r : JVal) : Option JVal :=
  match r with
  | JVal.obj fields => lookupField fields "id"
  | _ => none

/-- Python `r.get('id') != record_id` (negated): a record matches the queried
id exactly when its `id` field is the string `rid`; a missing id (`None`) or a
non-string id never equals a string in Python. -/
def idEq (v : Option JVal) (rid : String) : Bool :=
  match v with
  | some (JVal.str s) => s = rid
  | _ => false

/-- `delete_record(record_id)` from the source, with the session history
passed explicitly: a falsy (empty) id returns `False` untouched; otherwise
the records matching the id are filtered out, `False` is returned when
nothing was removed, and otherwise the result of `save_history` on the
remaining records is returned.  The second component is the resulting
in-memory history. -/
def delete_record (now : Int) (ioOk : Bool) (history : List JVal)
    (record_id : String) : Bool × List JVal :=
  if record_id = "" then (false, history)
  else
    let newHistory := history.filter (fun r => ! idEq (getId r) record_id)
    if newHistory.length = history.length then (false, newHistory)
    else ((save_history now ioOk newHistory).1, newHistory)

section HistoryLemmas

lemma filterRecent_keep {now : Int} {r : JVal} {rs : List JVal} {t : Int}
    (ht : recTime r = some t) (hgt : t > now - oneWeek) :
    filterRecent now (r :: rs) =
      (filterRecent now rs).map (fun rest => r :: rest) := by
  cases h : filterRecent now rs <;> simp [filterRecent, ht, hgt, h]

lemma filterRecent_drop {now : Int} {r : JVal} {rs : List JVal} {t : Int}
    (ht : recTime r = some t) (hle : ¬ t > now - oneWeek) :
    filterRecent now (r :: rs) = filterRecent now rs := by
  cases h : filterRecent now rs <;> simp [filterRecent, ht, hle, h]

end HistoryLemmas

section DeleteLemmas

lemma idEq_true_iff (v : Option JVal) (rid : String) :
    idEq v rid = true ↔ v = some (JVal.str rid) := by
  cases v with
  | none => simp [idEq]
  | some j =>
    cases j <;> simp [idEq]

lemma filter_not_eq_self {α : Type} (p : α → Bool) :
    ∀ l : List α, (∀ a ∈ l, p a = false) → l.filter (fun x => ! p x) = l
  | [], _ => rfl
  | x :: xs, h => by
    have hx : p x = false := h x (List.mem_cons_self x xs)
    have hxs := filter_not_eq_self p xs (fun a ha => h a (List.mem_cons_of_mem x ha))
    simp [List.filter, hx, hxs]

lemma filter_not_length_of_unique_match {α : Type} (p : α → Bool) :
    ∀ l : List α, l.Pairwise (fun a b => ¬ (p a = true ∧ p b = true)) →
      (∃ a ∈ l, p a = true) →
      (l.filter (fun x => ! p x)).length + 1 = l.length
  | [], _, hmem => absurd hmem (by simp)
  | x :: xs, hpw, hmem => by
    rw [List.pairwise_cons] at hpw
    by_cases hx : p x = true
    · have hall : ∀ a ∈ xs, p a = false := by
        intro a ha
        by_contra hne
        exact hpw.1 a ha ⟨hx, by revert hne; cases p a <;> simp⟩
      simp only [List.filter, hx]
      rw [filter_not_eq_self p xs hall]
      simp
    · have hx' : p x = false := by revert hx; cases p x <;> simp
      have hmem' : ∃ a ∈ xs, p a = true := by
        rcases hmem with ⟨a, ha, hpa⟩
        rcases List.mem_cons.mp ha with rfl | ha'
        · exact absurd hpa hx
        · exact ⟨a, ha', hpa⟩
      have ih := filter_not_length_of_unique_match p xs hpw.2 hmem'
      simp only [List.filter, hx']
      simpa using ih

end DeleteLemmas

/-- Claim C6: on a history whose records have pairwise-distinct, nonempty
string ids (the data-model invariant for records created by the app, whose
ids are fresh UUID strings): deleting an id that is not present returns
`false` and leaves the store unchanged; deleting an id that is present
removes exactly that one record (the length drops by one and every
non-matching record is retained), persists the remaining records via
`save_history`, and returns exactly the boolean `save_history` returns — in
particular `true` when the save succeeds and `false` when it fails. -/
theorem delete_record_spec (now : Int) (ioOk : Bool) (history : List JVal)
    (rid : String)
    (hids : ∀ r ∈ history, ∃ s, getId r = some (JVal.str s) ∧ s ≠ "")
    (huniq : history.Pairwise (fun a b => getId a ≠ getId b)) :
    ((¬ ∃ r ∈ history, idEq (getId r) rid = true) →
      delete_record now ioOk history rid = (false, history)) ∧
    ((∃ r ∈ history, idEq (getId r) rid = true) →
      delete_record now ioOk history rid =
        ((save_history now ioOk
            (history.filter (fun r => ! idEq (getId r) rid))).1,
          history.filter (fun r => ! idEq (getId r) rid)) ∧
      (history.filter (fun r => ! idEq (getId r) rid)).length + 1 =
        history.length ∧
      (∀ r ∈ history, idEq (getId r) rid = false →
        r ∈ history.filter (fun r => ! idEq (getId r) rid))) := by
  have hpw : history.Pairwise
      (fun a b => ¬ (idEq (getId a) rid = true ∧ idEq (getId b) rid = true)) := by
    refine huniq.imp ?_
    intro a b hne ⟨ha, hb⟩
    rw [idEq_true_iff] at ha hb
    exact hne (ha.trans hb.symm)
  constructor
  · intro hnone
    by_cases hrid : rid = ""
    · simp [delete_record, hrid]
    · have hall : ∀ a ∈ history, idEq (getId a) rid = false := by
        intro a ha
        by_contra hne
        exact hnone ⟨a, ha, by revert hne; cases idEq (getId a) rid <;> simp⟩
      have heq : history.filter (fun r => ! idEq (getId r) rid) = history :=
        filter_not_eq_self _ history hall
      simp [delete_record, hrid, heq]
  · intro hfound
    have hrid : rid ≠ "" := by
      rcases hfound with ⟨r, hr, hpr⟩
      rcases hids r hr with ⟨s, hg, hs⟩
      rw [idEq_true_iff] at hpr
      rw [hpr] at hg
      have : rid = s := by
        have := (Option.some.injEq _ _).mp hg
        exact (JVal.str.injEq _ _).mp this
      rwa [this]
    have hlen : (history.filter (fun r => ! idEq (getId r) rid)).length + 1 =
        history.length :=
      filter_not_length_of_unique_match _ history hpw hfound
    have hne : ¬ ((history.filter (fun r => ! idEq (getId r) rid)).length =
        history.length) := by omega
    refine ⟨?_, hlen, ?_⟩
    · simp [delete_record, hrid, hne]
    · intro r hr hpr
      exact List.mem_filter.mpr ⟨hr, by simp [hpr]⟩

/-- Witness for C6: deleting id `"b"` from a two-record store removes exactly
one record and returns the successful save's `true`. -/
theorem delete_record_spec_witness :
    delete_record 0 true
        [JVal.obj [("id", JVal.str "a"), ("时间", JVal.num 0)],
         JVal.obj [("id", JVal.str "b"), ("时间", JVal.num 0)]] "b" =
      ((save_history 0 true
          (([JVal.obj [("id", JVal.str "a"), ("时间", JVal.num 0)],
             JVal.obj [("id", JVal.str "b"), ("时间", JVal.num 0)]] :
            List JVal).filter
            (fun r => ! idEq (getId r) "b"))).1,
        ([JVal.obj [("id", JVal.str "a"), ("时间", JVal.num 0)],
          JVal.obj [("id", JVal.str "b"), ("时间", JVal.num 0)]] :
          List JVal).filter (fun r => ! idEq (getId r) "b")) := by
  refine ((delete_record_spec 0 true
      [JVal.obj [("id", JVal.str "a"), ("时间", JVal.num 0)],
       JVal.obj [("id", JVal.str "b"), ("时间", JVal.num 0)]] "b"
      ?_ ?_).2 ?_).1
  · intro r hr
    rcases List.mem_cons.mp hr with rfl | hr'
    · exact ⟨"a", rfl, by simp⟩
    · rcases List.mem_cons.mp hr' with rfl | hr''
      · exact ⟨"b", rfl, by simp⟩
      · simp at hr''
  · refine List.pairwise_cons.mpr ⟨?_, List.pairwise_cons.mpr ⟨?_, List.Pairwise.nil⟩⟩
    · intro b hb
      rcases List.mem_cons.mp hb with rfl | hb'
      · intro h
        simp [getId, lookupField] at h
      · simp at hb'
    · intro b hb
      simp at hb
  · exact ⟨JVal.obj [("id", JVal.str "b"), ("时间", JVal.num 0)],
      by simp, rfl⟩

/-- Claim C4: with a history containing entries dated `now`, `now - 3` days
and `now - 8` days, both `load_history` and `save_history` drop exactly the
entry strictly older than seven days: the 8-day-old record is gone, the other
two remain in order, and the persisted metadata records one cleaned record
and two total records. -/
theorem retention_drops_old_records (now : Int) (r0 r1 r2 : JVal)
    (h0 : recTime r0 = some now)
    (h1 : recTime r1 = some (now - 3 * 86400))
    (h2 : recTime r2 = some (now - 8 * 86400)) :
    load_history now
        (some (some (JVal.obj [("records", JVal.arr [r0, r1, r2])]))) =
      [r0, r1] ∧
    save_history now true [r0, r1, r2] =
      (true, some (JVal.obj
        [("records", JVal.arr [r0, r1]),
         ("metadata", JVal.obj
           [("last_updated", JVal.num now),
            ("total_records", JVal.num 2),
            ("cleaned_records", JVal.num 1)])])) := by
  have hfilter : filterRecent now [r0, r1, r2] = some [r0, r1] := by
    rw [filterRecent_keep h0 (by unfold oneWeek; omega),
        filterRecent_keep h1 (by unfold oneWeek; omega),
        filterRecent_drop h2 (by unfold oneWeek; omega)]
    rfl
  constructor
  · simp [load_history, lookupField, hfilter]
  · simp [save_history, hfilter]

/-- Witness for C4 at concrete records (times 0, minus three days, minus
eight days, current time 0). -/
theorem retention_drops_old_records_witness :
    load_history 0
        (some (some (JVal.obj [("records", JVal.arr
          [JVal.obj [("时间", JVal.num 0)],
           JVal.obj [("时间", JVal.num (0 - 3 * 86400))],
           JVal.obj [("时间", JVal.num (0 - 8 * 86400))]])]))) =
      [JVal.obj [("时间", JVal.num 0)],
       JVal.obj [("时间", JVal.num (0 - 3 * 86400))]] :=
  (retention_drops_old_records 0
    (JVal.obj [("时间", JVal.num 0)])
    (JVal.obj [("时间", JVal.num (0 - 3 * 86400))])
    (JVal.obj [("时间", JVal.num (0 - 8 * 86400))])
    rfl rfl rfl).1

/-- Claim C5: loading from a missing file, an empty (unparseable) file, a
file whose JSON is not a dict, a dict without a `records` key (such as
`{"not_records": []}`), or a dict whose `records` is not a list, always
returns the empty list; `load_history` is total, so no exception reaches the
caller. -/
theorem defensive_load (now : Int) :
    load_history now none = [] ∧
    load_history now (some none) = [] ∧
    load_history now (some (some (JVal.obj [("not_records", JVal.arr [])]))) =
      [] ∧
    load_history now (some (some (JVal.arr []))) = [] ∧
    load_history now (some (some (JVal.obj [("records", JVal.str "x")]))) =
      [] :=
  ⟨rfl, rfl, rfl, rfl, rfl⟩

/-- A PDF text block as returned by `page.get_text("blocks")`: `text` is the
block's text (`b[4]`) and `btype` its block type (`b[6]`, `0` for text blocks,
`1` for image/drawing blocks).  A parsed document is a list of pages, each a
list of blocks in reading order. -/
structure Block where
  text : String
  btype : Nat

/-- Python's whitespace set as used by `str.strip()`. -/
def isPySpace (c : Char) : Bool :=
  c = ' ' || c = '\t' || c = '\n' || c = '\r' || c = '\x0b' || c = '\x0c'

/-- `str.strip()`: drop leading and trailing whitespace. -/
def pyStrip (s : String) : String :=
  String.mk (((s.data.dropWhile isPySpace).reverse.dropWhile isPySpace).reverse)

/-- `str.replace('\x00', '')`: remove every null character. -/
def stripNulls (s : String) : String :=
  String.mk (s.data.filter (fun c => ! (c == Char.ofNat 0)))

/-- `b[4].replace('\x00', '').strip()` from the block loop. -/
def cleanBlock (s : String) : String := pyStrip (stripNulls s)

/-- The inner block loop of `extract_text_from_pdf_by_hash` (and of
`process_large_file`) over one page: keep a block when `b[6] == 0`, its
cleaned text is truthy and its cleaned length exceeds 20. -/
def collectPageBlocks : List Block → List String
  | [] => []
  | b :: bs =>
    if b.btype = 0 then
      let c := cleanBlock b.text
      if c ≠ "" ∧ 20 < c.length then c :: collectPageBlocks bs
      else collectPageBlocks bs
    else collectPageBlocks bs

/-- The page loop: collect the retained blocks of every page in document
order. -/
def collectDocBlocks : List (List Block) → List String
  | [] => []
  | page :: pages => collectPageBlocks page ++ collectDocBlocks pages

/-- The small-file branch of `extract_text_from_pdf_by_hash` applied to an
already-parsed document: `"\n".join(text_blocks)`. -/
def extract_text_from_doc (doc : List (List Block)) : String :=
  String.intercalate "\n" (collectDocBlocks doc)

/-- `MAX_FILE_SIZE = 200 * 1024 * 1024` from the source. -/
def MAX_FILE_SIZE : Nat := 200 * 1024 * 1024

/-- `chunk_size = 1024 * 1024` from `process_large_file`. -/
def chunk_size : Nat := 1024 * 1024

/-- A Python value flowing into `process_large_file`: either a raw `bytes`
object or an uploaded-file object that supports `.getvalue()`. -/
inductive PyVal where
  | pyBytes (bs : List Nat)
  | uploadedFile (bs : List Nat)

/-- The modelled Python exception surface of the extraction path. -/
inductive PyError where
  | attributeError

/-- `uploaded_file.getvalue()`: succeeds on an uploaded-file object; on a raw
`bytes` object it raises `AttributeError` (bytes has no `getvalue`). -/
def getvalue : PyVal → Except PyError (List Nat)
  | PyVal.uploadedFile bs => Except.ok bs
  | PyVal.pyBytes _ => Except.error PyError.attributeError

/-- `range(0, len(file_bytes), chunk_size)` slicing: split a list into
consecutive windows of `n` elements (the fuel argument is the list length,
enough since every step consumes at least one element when `0 < n`). -/
def chunksGo {α : Type} (n : Nat) : Nat → List α → List (List α)
  | 0, _ => []
  | _, [] => []
  | fuel + 1, l => l.take n :: chunksGo n fuel (l.drop n)

/-- The fixed-size byte windows of `process_large_file`. -/
def chunksOf {α : Type} (n : Nat) (l : List α) : List (List α) :=
  chunksGo n l.length l

/-- `process_large_file(uploaded_file)` from the source: reads the bytes via
`.getvalue()` (raising `AttributeError` when handed raw bytes), parses each
1MB window as its own document with `fitz.open`, runs the same block filter
over every page of every window in original order, and joins the retained
blocks with newlines.  `parse` stands for `fitz.open` on a byte window. -/
def process_large_file (parse : List Nat → List (List Block))
    (uploaded_file : PyVal) : Except PyError String :=
  match getvalue uploaded_file with
  | Except.error e => Except.error e
  | Except.ok file_bytes =>
    Except.ok (String.intercalate "\n"
      (collectDocBlocks (((chunksOf chunk_size file_bytes).map parse).flatten)))

/-- `extract_text_from_pdf_by_hash(file_hash, file_bytes)` from the source:
inputs larger than `MAX_FILE_SIZE` are handed to `process_large_file` — as
the raw `bytes` object, not an uploaded-file object — and smaller inputs are
parsed directly and filtered.  `file_hash` is only the memoization key and is
unused in the body. -/
def extract_text_from_pdf_by_hash (parse : List Nat → List (List Block))
    (file_hash : String) (file_bytes : List Nat) : Except PyError String :=
  if file_bytes.length > MAX_FILE_SIZE then
    process_large_file parse (PyVal.pyBytes file_bytes)
  else
    Except.ok (extract_text_from_doc (parse file_bytes))

section ExtractionLemmas

lemma collectPageBlocks_eq_filterMap (page : List Block) :
    collectPageBlocks page =
      (page.filter (fun b => b.btype == 0)).filterMap (fun b =>
        let c := cleanBlock b.text
        if c ≠ "" ∧ 20 < c.length then some c else none) := by
  induction page with
  | nil => rfl
  | cons b bs ih =>
    by_cases hb : b.btype = 0
    · by_cases hc : cleanBlock b.text ≠ "" ∧ 20 < (cleanBlock b.text).length <;>
        simp [collectPageBlocks, List.filter_cons, hb, hc, ih]
    · simp [collectPageBlocks, List.filter_cons, hb, ih]

lemma intercalate_singleton (sep x : String) :
    String.intercalate sep [x] = x := rfl

end ExtractionLemmas

/-- Counterexample to claim C7 as stated: a page whose single text block has
exactly 20 characters.  The claim says only blocks shorter than 20 characters
are discarded, so this block should be retained and the output should be the
block itself; the code requires length strictly greater than 20 and produces
the empty string. -/
theorem twenty_char_block_discarded :
    extract_text_from_doc [[⟨"aaaaaaaaaaaaaaaaaaaa", 0⟩]] = "" ∧
    ("aaaaaaaaaaaaaaaaaaaa" : String).length = 20 ∧
    cleanBlock "aaaaaaaaaaaaaaaaaaaa" = "aaaaaaaaaaaaaaaaaaaa" :=
  ⟨rfl, rfl, rfl⟩

/-- Claim C7 (amended): per page only text blocks (`b[6] == 0`) are kept,
null bytes and surrounding whitespace are stripped, blocks whose cleaned text
is 20 characters or shorter are discarded (only strictly-longer-than-20
blocks survive), and the output is the newline-join of the retained blocks in
document order; in particular a page with one 5-character block and one
50-character block yields exactly the 50-character block. -/
theorem extraction_filtering (doc : List (List Block)) :
    extract_text_from_doc doc =
      String.intercalate "\n"
        ((doc.map (fun page =>
          (page.filter (fun b => b.btype == 0)).filterMap (fun b =>
            let c := cleanBlock b.text
            if c ≠ "" ∧ 20 < c.length then some c else none))).flatten) ∧
    (∀ sShort sLong : String,
      (cleanBlock sShort).length ≤ 20 → 20 < (cleanBlock sLong).length →
      extract_text_from_doc [[⟨sShort, 0⟩, ⟨sLong, 0⟩]] = cleanBlock sLong) := by
  constructor
  · unfold extract_text_from_doc
    congr 1
    induction doc with
    | nil => rfl
    | cons page pages ih =>
      simp [collectDocBlocks, collectPageBlocks_eq_filterMap, ih]
  · intro sShort sLong hshort hlong
    have hne : cleanBlock sLong ≠ "" := by
      intro h
      rw [h] at hlong
      simp at hlong
    have hcShort : ¬ (cleanBlock sShort ≠ "" ∧ 20 < (cleanBlock sShort).length) := by
      rintro ⟨-, h⟩
      omega
    have hcLong : cleanBlock sLong ≠ "" ∧ 20 < (cleanBlock sLong).length :=
      ⟨hne, hlong⟩
    simp [extract_text_from_doc, collectDocBlocks, collectPageBlocks,
      hcShort, hcLong, intercalate_singleton]

/-- Witness for C7 (amended) at a 5-character and a 50-character block. -/
theorem extraction_filtering_witness :
    extract_text_from_doc
        [[⟨"short", 0⟩,
          ⟨"bbbbbbbbbbbbbbbbbbbbbbbbbbbbbbbbbbbbbbbbbbbbbbbbbb", 0⟩]] =
      cleanBlock "bbbbbbbbbbbbbbbbbbbbbbbbbbbbbbbbbbbbbbbbbbbbbbbbbb" :=
  (extraction_filtering
    [[⟨"short", 0⟩,
      ⟨"bbbbbbbbbbbbbbbbbbbbbbbbbbbbbbbbbbbbbbbbbbbbbbbbbb", 0⟩]]).2
    "short" "bbbbbbbbbbbbbbbbbbbbbbbbbbbbbbbbbbbbbbbbbbbbbbbbbb"
    (by decide) (by decide)

/-- Claim C8 as the code behaves: for every input above the chunk threshold
(`MAX_FILE_SIZE`), `extract_text_from_pdf_by_hash` passes the raw bytes to
`process_large_file`, whose very first step `uploaded_file.getvalue()` raises
`AttributeError` — the chunked path never extracts anything.  The second
conjunct shows that `process_large_file`, handed the uploaded-file object it
was written for, computes exactly the claim's behaviour: fixed-size windows,
each parsed independently, retained blocks concatenated in original order. -/
theorem chunked_path_raises (parse : List Nat → List (List Block))
    (file_hash : String) (file_bytes : List Nat)
    (h : file_bytes.length > MAX_FILE_SIZE) :
    extract_text_from_pdf_by_hash parse file_hash file_bytes =
      Except.error PyError.attributeError ∧
    process_large_file parse (PyVal.uploadedFile file_bytes) =
      Except.ok (String.intercalate "\n"
        (collectDocBlocks (((chunksOf chunk_size file_bytes).map parse).flatten))) := by
  constructor
  · simp [extract_text_from_pdf_by_hash, h, process_large_file, getvalue]
  · rfl

/-- Witness for C8: a 200MB + 1 input hits the `AttributeError`. -/
theorem chunked_path_raises_witness :
    extract_text_from_pdf_by_hash (fun _ => []) ""
        (List.replicate (MAX_FILE_SIZE + 1) 0) =
      Except.error PyError.attributeError :=
  (chunked_path_raises (fun _ => []) "" (List.replicate (MAX_FILE_SIZE + 1) 0)
    (by rw [List.length_replicate]; omega)).1

/-- The state of one `st.cache_data` memoization table: an association list
from argument tuples to cached return values, newest first. -/
structure CacheState (κ ν : Type) where
  entries : List (κ × ν)

/-- Cache lookup by key. -/
def lookupEntry {κ ν : Type} [DecidableEq κ] : List (κ × ν) → κ → Option ν
  | [], _ => none
  | (k, v) :: rest, key => if k = key then some v else lookupEntry rest key

/-- Result of one call through a memoization table: the value produced
(`none` models the computation raising, which propagates to the caller),
the table afterwards, and how many times the underlying computation ran
(0 or 1). -/
structure CacheOutcome (κ ν : Type) where
  value : Option ν
  state : CacheState κ ν
  invoked : Nat

/-- `st.cache_data(max_entries=...)` semantics: on a hit the cached value is
returned and the computation is not invoked; on a miss the computation runs
once, a successful return value is stored (evicting the oldest entry beyond
`maxEntries`), and an exception is propagated without caching anything. -/
def cache_data {κ ν : Type} [DecidableEq κ] (maxEntries : Nat)
    (compute : κ → Option ν) (s : CacheState κ ν) (k : κ) : CacheOutcome κ ν :=
  match lookupEntry s.entries k with
  | some v => ⟨some v, s, 0⟩
  | none =>
    match compute k with
    | none => ⟨none, s, 1⟩
    | some v =>
      let entries := (k, v) :: s.entries
      ⟨some v, ⟨if maxEntries < entries.length then entries.dropLast else entries⟩, 1⟩

/-- Python string slicing `s[:n]` (by characters, like Python code points). -/
def pyTake (n : Nat) (s : String) : String := String.mk (s.data.take n)

/-- The argument tuple `st.cache_data` keys `extract_text_from_pdf_by_hash`
by, as built in `process_file_with_status`:
`file_hash = hashlib.md5(file_bytes).hexdigest()` plus the bytes themselves.
`md5` stands for the digest function. -/
def extract_cache_key (md5 : List Nat → String) (file_bytes : List Nat) :
    String × List Nat := (md5 file_bytes, file_bytes)

/-- The argument tuple `st.cache_data` keys `extract_study_by_hash` by, as
built in `process_file_with_status`: the text is trimmed to 30000 characters
and fingerprinted (`trimmed_text = full_text[:30000]`,
`text_hash = md5(trimmed_text)`). -/
def model_cache_key (md5 : String → String) (full_text : String) :
    String × String :=
  let trimmed_text := pyTake 30000 full_text
  (md5 trimmed_text, trimmed_text)

/-- The computation memoized by the extraction cache: the body of
`extract_text_from_pdf_by_hash` on the keyed arguments, with a raised
exception modelled as `none`. -/
def extractFn (parse : List Nat → List (List Block)) :
    String × List Nat → Option String := fun k =>
  match extract_text_from_pdf_by_hash parse k.1 k.2 with
  | Except.ok s => some s
  | Except.error _ => none

/-- Claim C1: the two memoization tables.  From an empty cache, running the
cached extraction on `b1` and then on `b2` invokes the underlying extractor
once in total when the bytes are identical and twice when they differ; the
extraction key carries the original file's fingerprint; the model-analysis
key is the fingerprint of the extracted text trimmed to at most 30000
characters; and a key already present never re-invokes the computation.
(The size hypothesis keeps `b1` within the caller's 200MB validation bound,
under which extraction returns normally and its result is cached.) -/
theorem extraction_cache_correct (parse : List Nat → List (List Block))
    (md5 : List Nat → String) (md5t : String → String)
    (b1 b2 : List Nat) (full_text : String)
    (hsize : b1.length ≤ MAX_FILE_SIZE) :
    (b1 = b2 →
      (cache_data 100 (extractFn parse) ⟨[]⟩ (extract_cache_key md5 b1)).invoked +
        (cache_data 100 (extractFn parse)
          (cache_data 100 (extractFn parse) ⟨[]⟩
            (extract_cache_key md5 b1)).state
          (extract_cache_key md5 b2)).invoked = 1) ∧
    (b1 ≠ b2 →
      (cache_data 100 (extractFn parse) ⟨[]⟩ (extract_cache_key md5 b1)).invoked +
        (cache_data 100 (extractFn parse)
          (cache_data 100 (extractFn parse) ⟨[]⟩
            (extract_cache_key md5 b1)).state
          (extract_cache_key md5 b2)).invoked = 2) ∧
    (extract_cache_key md5 b1).1 = md5 b1 ∧
    model_cache_key md5t full_text =
      (md5t (pyTake 30000 full_text), pyTake 30000 full_text) ∧
    (pyTake 30000 full_text).length ≤ 30000 ∧
    (∀ (s : CacheState (String × List Nat) String) (k : String × List Nat)
        (v : String), lookupEntry s.entries k = some v →
      (cache_data 100 (extractFn parse) s k).invoked = 0 ∧
      (cache_data 100 (extractFn parse) s k).value = some v) := by
  have hsize' : ¬ b1.length > MAX_FILE_SIZE := not_lt.mpr hsize
  have hfn : extractFn parse (extract_cache_key md5 b1) =
      some (extract_text_from_doc (parse b1)) := by
    simp [extractFn, extract_cache_key, extract_text_from_pdf_by_hash, hsize']
  have hc1 : cache_data 100 (extractFn parse) ⟨[]⟩ (extract_cache_key md5 b1) =
      ⟨some (extract_text_from_doc (parse b1)),
        ⟨[(extract_cache_key md5 b1, extract_text_from_doc (parse b1))]⟩, 1⟩ := by
    simp [cache_data, lookupEntry, hfn]
  refine ⟨?_, ?_, rfl, rfl, ?_, ?_⟩
  · rintro rfl
    rw [hc1]
    simp [cache_data, lookupEntry]
  · intro hne
    rw [hc1]
    have hkey : ¬ (extract_cache_key md5 b1 = extract_cache_key md5 b2) := by
      simp only [extract_cache_key, Prod.mk.injEq, not_and]
      intro _
      exact hne
    simp only [cache_data, lookupEntry, if_neg hkey]
    cases hx : extractFn parse (extract_cache_key md5 b2) <;> simp [hx]
  · simp [pyTake]
  · intro s k v h
    simp [cache_data, h]

/-- Witness for C1: identical singleton byte lists give one invocation in
total, different ones give two. -/
theorem extraction_cache_correct_witness :
    ((cache_data 100 (extractFn (fun _ => [])) ⟨[]⟩
        (extract_cache_key (fun _ => "h") [0])).invoked +
      (cache_data 100 (extractFn (fun _ => []))
        (cache_data 100 (extractFn (fun _ => [])) ⟨[]⟩
          (extract_cache_key (fun _ => "h") [0])).state
        (extract_cache_key (fun _ => "h") [0])).invoked = 1) ∧
    ((cache_data 100 (extractFn (fun _ => [])) ⟨[]⟩
        (extract_cache_key (fun _ => "h") [0])).invoked +
      (cache_data 100 (extractFn (fun _ => []))
        (cache_data 100 (extractFn (fun _ => [])) ⟨[]⟩
          (extract_cache_key (fun _ => "h") [0])).state
        (extract_cache_key (fun _ => "h") [1])).invoked = 2) :=
  ⟨(extraction_cache_correct (fun _ => []) (fun _ => "h") (fun _ => "h")
      [0] [0] "" (by norm_num [MAX_FILE_SIZE])).1 rfl,
    (extraction_cache_correct (fun _ => []) (fun _ => "h") (fun _ => "h")
      [0] [1] "" (by norm_num [MAX_FILE_SIZE])).2.1 (by simp)⟩

/-- The outcome of one HTTP round in `extract_study_design`: either
`requests.post` raises (network error / timeout), or a response arrives with
a status code and a parsed JSON body (`none` body = `response.json()`
raises). -/
inductive HttpResult where
  | requestException
  | response (status : Nat) (body : Option JVal)

/-- What one execution of the `extract_study_design` body does: re-raise a
`RequestException` (which tenacity then retries) or return a string. -/
inductive AttemptOutcome where
  | raised
  | returned (s : String)

/-- `response.json()["choices"][0]["message"]["content"]`: the first
completion choice's message content, or `none` when the body is missing,
malformed, or any key/index along the path is absent (every such case raises
in Python and lands in the generic handler). -/
def getContent (body : Option JVal) : Option String :=
  match body with
  | some (JVal.obj fields) =>
    match lookupField fields "choices" with
    | some (JVal.arr (c :: _)) =>
      match c with
      | JVal.obj choiceFields =>
        match lookupField choiceFields "message" with
        | some (JVal.obj messageFields) =>
          match lookupField messageFields "content" with
          | some (JVal.str s) => some s
          | _ => none
        | _ => none
      | _ => none
    | _ => none
  | _ => none

/-- One attempt of `extract_study_design`: a `RequestException` (including
the `HTTPError` that `raise_for_status` raises on status ≥ 400) is re-raised
after the advisory message, any other error (malformed body, missing field)
falls into the generic handler and returns the empty string, and otherwise
the content string is returned. -/
def extract_study_design_once (r : HttpResult) : AttemptOutcome :=
  match r with
  | HttpResult.requestException => AttemptOutcome.raised
  | HttpResult.response status body =>
    if 400 ≤ status then AttemptOutcome.raised
    else
      match getContent body with
      | some s => AttemptOutcome.returned s
      | none => AttemptOutcome.returned ""

/-- The terminal state of the retried call: a returned value or exhausted
retries (tenacity's terminal error, the spec's `ModelCallError`), together
with the number of attempts made and the backoff waits slept between them. -/
inductive RetryResult where
  | ok (s : String) (attempts : Nat) (waits : List Nat)
  | modelCallError (attempts : Nat) (waits : List Nat)

/-- The unclamped exponential backoff base `multiplier * 2^n` of
`wait_exponential`. -/
def backoff_base (multiplier n : Nat) : Nat := multiplier * 2 ^ n

/-- `tenacity.wait_exponential(multiplier=1, min=4, max=10)`: the doubling
base clamped between the floor `mn` and the ceiling `mx`. -/
def wait_exponential (multiplier mn mx n : Nat) : Nat :=
  max mn (min mx (backoff_base multiplier n))

/-- The retry loop of `@retry(stop=stop_after_attempt(3), ...)`: run the
attempt; a returned value ends the call; a raised `RequestException` either
exhausts the attempt budget or sleeps the backoff and retries.  `results n`
is the HTTP outcome of the n-th attempt (1-based); the fuel is the remaining
attempt budget. -/
def retryGo (results : Nat → HttpResult) :
    Nat → Nat → List Nat → RetryResult
  | 0, attemptNumber, waits =>
    RetryResult.modelCallError attemptNumber waits.reverse
  | fuel + 1, attemptNumber, waits =>
    match extract_study_design_once (results attemptNumber) with
    | AttemptOutcome.returned s => RetryResult.ok s attemptNumber waits.reverse
    | AttemptOutcome.raised =>
      if fuel = 0 then RetryResult.modelCallError attemptNumber waits.reverse
      else retryGo results fuel (attemptNumber + 1)
        (wait_exponential 1 4 10 attemptNumber :: waits)

/-- `extract_study_design` under its tenacity decorator: up to 3 attempts
with `wait_exponential(multiplier=1, min=4, max=10)` between them. -/
def extract_study_design (results : Nat → HttpResult) : RetryResult :=
  retryGo results 3 1 []

/-- Claim C2: when every attempt fails transiently, the request is attempted
exactly 3 times, the waits between attempts follow the exponential schedule
clamped between the floor 4 and the ceiling 10 (the unclamped base doubles
each retry), and the call terminates in the retry-exhaustion error the spec
calls `ModelCallError`. -/
theorem retry_exhaustion (results : Nat → HttpResult)
    (h : ∀ n, extract_study_design_once (results n) = AttemptOutcome.raised) :
    extract_study_design results =
      RetryResult.modelCallError 3
        [wait_exponential 1 4 10 1, wait_exponential 1 4 10 2] ∧
    (∀ n, 4 ≤ wait_exponential 1 4 10 n ∧ wait_exponential 1 4 10 n ≤ 10) ∧
    (∀ n, backoff_base 1 (n + 1) = 2 * backoff_base 1 n) := by
  refine ⟨?_, ?_, ?_⟩
  · simp [extract_study_design, retryGo, h]
  · intro n
    refine ⟨Nat.le_max_left _ _, Nat.max_le.mpr ⟨by norm_num, Nat.min_le_left _ _⟩⟩
  · intro n
    simp [backoff_base, pow_succ]
    ring

/-- Witness for C2: a stub whose every attempt is a network failure. -/
theorem retry_exhaustion_witness :
    extract_study_design (fun _ => HttpResult.requestException) =
      RetryResult.modelCallError 3
        [wait_exponential 1 4 10 1, wait_exponential 1 4 10 2] :=
  (retry_exhaustion (fun _ => HttpResult.requestException) (fun _ => rfl)).1

/-- Counterexample to claim C3 as stated: a well-formed 200 response whose
body lacks the content field.  The claim says the call fails by raising
`ModelResponseError` rather than returning a non-error value; the code
returns normally after one attempt with the empty string as its value. -/
theorem missing_content_not_an_error :
    extract_study_design
        (fun _ => HttpResult.response 200 (some (JVal.obj []))) =
      RetryResult.ok "" 1 [] := rfl

/-- Claim C3 (amended): when the first completion choice's message content is
absent or the response body is malformed (and the status is not an HTTP
error), the model call is not retried — it terminates after the single
attempt — and it fails by returning the empty string, the non-error sentinel
the caller treats as failure; no `ModelResponseError` exists in the code. -/
theorem missing_content_returns_empty (status : Nat) (body : Option JVal)
    (hs : status < 400) (hc : getContent body = none)
    (results : Nat → HttpResult)
    (hr : results 1 = HttpResult.response status body) :
    extract_study_design results = RetryResult.ok "" 1 [] := by
  have honce : extract_study_design_once (results 1) =
      AttemptOutcome.returned "" := by
    rw [hr]
    simp [extract_study_design_once, Nat.not_le.mpr hs, hc]
  simp [extract_study_design, retryGo, honce]

/-- Witness for C3 (amended): a 200 response with an empty choices array. -/
theorem missing_content_returns_empty_witness :
    extract_study_design
        (fun _ => HttpResult.response 200
          (some (JVal.obj [("choices", JVal.arr [])]))) =
      RetryResult.ok "" 1 [] :=
  missing_content_returns_empty 200
    (some (JVal.obj [("choices", JVal.arr [])]))
    (by norm_num) rfl _ rfl

/-- The computation memoized by the model-analysis cache: the body of
`extract_study_by_hash`, i.e. the retried `extract_study_design` on the keyed
text, with retry exhaustion (an uncaught exception) modelled as `none` so it
is never cached.  `oracle t n` is the HTTP outcome of the n-th attempt for
text `t`. -/
def studyFn (oracle : String → Nat → HttpResult) :
    String × String → Option String := fun k =>
  match extract_study_design (oracle k.2) with
  | RetryResult.ok s _ _ => some s
  | RetryResult.modelCallError _ _ => none

/-- Claim C10: when the model call for a text lands in the non-retried
generic error branch on its first attempt, the analysis function returns the
empty string, the memoization table caches that empty string under the
text's fingerprint key, and a second identical call is served from the cache
with the computation not invoked again. -/
theorem empty_result_is_cached (md5t : String → String) (t : String)
    (oracle : String → Nat → HttpResult)
    (h1 : extract_study_design_once (oracle t 1) = AttemptOutcome.returned "") :
    extract_study_design (oracle t) = RetryResult.ok "" 1 [] ∧
    (cache_data 100 (studyFn oracle) ⟨[]⟩ (md5t t, t)).value = some "" ∧
    (cache_data 100 (studyFn oracle) ⟨[]⟩ (md5t t, t)).invoked = 1 ∧
    (cache_data 100 (studyFn oracle)
      (cache_data 100 (studyFn oracle) ⟨[]⟩ (md5t t, t)).state
      (md5t t, t)).value = some "" ∧
    (cache_data 100 (studyFn oracle)
      (cache_data 100 (studyFn oracle) ⟨[]⟩ (md5t t, t)).state
      (md5t t, t)).invoked = 0 := by
  have hdesign : extract_study_design (oracle t) = RetryResult.ok "" 1 [] := by
    simp [extract_study_design, retryGo, h1]
  have hfn : studyFn oracle (md5t t, t) = some "" := by
    simp [studyFn, hdesign]
  have hc1 : cache_data 100 (studyFn oracle) ⟨[]⟩ (md5t t, t) =
      ⟨some "", ⟨[((md5t t, t), "")]⟩, 1⟩ := by
    simp [cache_data, lookupEntry, hfn]
  refine ⟨hdesign, ?_, ?_, ?_, ?_⟩ <;> rw [hc1] <;>
    simp [cache_data, lookupEntry]

/-- Witness for C10 at a concrete text and a malformed 200 response. -/
theorem empty_result_is_cached_witness :
    (cache_data 100
        (studyFn (fun _ _ => HttpResult.response 200 (some JVal.null)))
        (cache_data 100
          (studyFn (fun _ _ => HttpResult.response 200 (some JVal.null)))
          ⟨[]⟩ ("h", "some text")).state
        ("h", "some text")).invoked = 0 :=
  (empty_result_is_cached (fun _ => "h") "some text"
    (fun _ _ => HttpResult.response 200 (some JVal.null)) rfl).2.2.2.2

/-- The allow-list of `sanitize_filename`: alphanumerics, `-`, `.`, `_`. -/
def safe_chars : List Char :=
  "abcdefghijklmnopqrstuvwxyzABCDEFGHIJKLMNOPQRSTUVWXYZ0123456789-._".data

/-- `sanitize_filename(filename)` from the source: keep only allow-listed
characters and fall back to `"unnamed_file"` when nothing survives.  Defined
in the source — but never called by it. -/
def sanitize_filename (filename : String) : String :=
  let cleaned := String.mk (filename.data.filter (fun c => safe_chars.contains c))
  if cleaned = "" then "unnamed_file" else cleaned

/-- `os.path.splitext(name)[0]`: the name with its last extension removed;
a name with no dot, or whose only dots are leading, is returned whole. -/
def splitext_base (name : String) : String :=
  let cs := name.data
  match cs.reverse.findIdx? (fun c => c = '.') with
  | none => name
  | some i =>
    if (cs.take (cs.length - i - 1)).all (fun c => c = '.') then name
    else String.mk (cs.take (cs.length - i - 1))

/-- The CSV download filename built in the main flow:
`f"{today}_{base_name}_结构化.csv"` with
`base_name = os.path.splitext(uploaded_file.name)[0]` — the raw uploaded
name, unsanitized. -/
def csv_download_name (today name : String) : String :=
  today ++ "_" ++ splitext_base name ++ "_结构化.csv"

/-- The PPT download filename: `f"{today}_{base_name}_结构化.pptx"`. -/
def pptx_download_name (today name : String) : String :=
  today ++ "_" ++ splitext_base name ++ "_结构化.pptx"

/-- The Word download filename: `f"{today}_{base_name}_结构化.docx"`. -/
def docx_download_name (today name : String) : String :=
  today ++ "_" ++ splitext_base name ++ "_结构化.docx"

/-- Claim C9 evaluated at its failing input: the download filenames for an
upload named `"a b.pdf"` embed the raw base name `"a b"`, whose space is not
in the allow-list, while `sanitize_filename` would have produced `"ab.pdf"` —
the sanitizer exists but no output filename passes through it. -/
theorem download_names_not_sanitized :
    csv_download_name "20260101" "a b.pdf" = "20260101_a b_结构化.csv" ∧
    pptx_download_name "20260101" "a b.pdf" = "20260101_a b_结构化.pptx" ∧
    docx_download_name "20260101" "a b.pdf" = "20260101_a b_结构化.docx" ∧
    safe_chars.contains ' ' = false ∧
    ("20260101_a b_结构化.csv".data.contains ' ') = true ∧
    sanitize_filename "a b.pdf" = "ab.pdf" := by
  refine ⟨?_, ?_, ?_, by decide, by decide, ?_⟩ <;> decide

end ClinicalAssistant
